import Mathlib

/-!
# Verification of the happy-aquarium core

Shallow embedding of the real-time aquarium core:

* `src/src/game/fishBehavior.ts` — the autonomous agent simulator
  (`fishBehavior`), embedded over `ℝ`.  The environment calls
  `Math.random()` and `Date.now()` are modelled as explicit inputs: a
  stream `rng : ℕ → ℝ` (the k-th call returns `rng k`) and a `time : ℝ`
  parameter (the value of `Date.now() * 0.001`, computed once per call).
  three.js vector/quaternion operations (`clampLength`, `normalize`,
  `distanceTo`, `Matrix4.lookAt`, `Quaternion.setFromRotationMatrix`,
  `Quaternion.slerp`) are translated from the three.js sources.
* `src/src/game/meshBuilders.ts` — the dispatch of `buildFishMesh` /
  `buildDecorationMesh` and the `hashStr` string hash (JS 32-bit
  `Math.imul` semantics over `ℤ`).
* `src/src/scenes/AquariumScene.tsx` — the fish-mesh reconciliation
  effect of the first component revision (lines 207–242), and the
  decoration drag handlers of the third revision (`highlightMesh`,
  `unhighlightMesh`, `onPointerMove`, `onPointerUp`), embedded over `ℚ`.
-/

namespace Aquarium

noncomputable section

/-! ## three.js vector math over ℝ -/

/-- `THREE.Vector3`. -/
structure Vec3 where
  x : ℝ
  y : ℝ
  z : ℝ

namespace Vec3

/-- `Vector3.add`. -/
def add (a b : Vec3) : Vec3 := ⟨a.x + b.x, a.y + b.y, a.z + b.z⟩

/-- `Vector3.sub`. -/
def sub (a b : Vec3) : Vec3 := ⟨a.x - b.x, a.y - b.y, a.z - b.z⟩

/-- `Vector3.multiplyScalar`. -/
def scale (a : Vec3) (c : ℝ) : Vec3 := ⟨a.x * c, a.y * c, a.z * c⟩

/-- `Vector3.lengthSq`. -/
def lengthSq (a : Vec3) : ℝ := a.x ^ 2 + a.y ^ 2 + a.z ^ 2

/-- `Vector3.length`. -/
def length (a : Vec3) : ℝ := Real.sqrt a.lengthSq

/-- `Vector3.distanceTo`. -/
def dist (a b : Vec3) : ℝ := (a.sub b).length

/-- `Vector3.normalize`: `divideScalar(this.length() || 1)`. -/
def normalize (a : Vec3) : Vec3 :=
  a.scale (1 / (if a.length = 0 then 1 else a.length))

/-- `Vector3.clampLength(min, max)`:
`divideScalar(length || 1).multiplyScalar(Math.max(min, Math.min(max, length)))`. -/
def clampLength (a : Vec3) (lo hi : ℝ) : Vec3 :=
  (a.scale (1 / (if a.length = 0 then 1 else a.length))).scale
    (max lo (min hi a.length))

/-- `Vector3.crossVectors`. -/
def cross (a b : Vec3) : Vec3 :=
  ⟨a.y * b.z - a.z * b.y, a.z * b.x - a.x * b.z, a.x * b.y - a.y * b.x⟩

end Vec3

/-- `THREE.Quaternion`. -/
structure Quat where
  x : ℝ
  y : ℝ
  z : ℝ
  w : ℝ

namespace Quat

/-- `Quaternion.normalize`. -/
def normalizeQ (q : Quat) : Quat :=
  let l := Real.sqrt (q.x ^ 2 + q.y ^ 2 + q.z ^ 2 + q.w ^ 2)
  if l = 0 then ⟨0, 0, 0, 1⟩ else ⟨q.x / l, q.y / l, q.z / l, q.w / l⟩

end Quat

/-- `Math.atan2`. -/
def atan2 (y x : ℝ) : ℝ :=
  if 0 < x then Real.arctan (y / x)
  else if x < 0 then
    (if 0 ≤ y then Real.arctan (y / x) + Real.pi else Real.arctan (y / x) - Real.pi)
  else
    (if 0 < y then Real.pi / 2 else if y < 0 then -(Real.pi / 2) else 0)

/-- `Number.EPSILON` = 2⁻⁵². -/
def jsEpsilon : ℝ := 1 / 4503599627370496

/-- `Quaternion.setFromRotationMatrix` applied to a rotation matrix whose
columns are the basis vectors produced by `Matrix4.lookAt`. -/
def quatFromBasis (colX colY colZ : Vec3) : Quat :=
  let m11 := colX.x; let m12 := colY.x; let m13 := colZ.x
  let m21 := colX.y; let m22 := colY.y; let m23 := colZ.y
  let m31 := colX.z; let m32 := colY.z; let m33 := colZ.z
  let tr := m11 + m22 + m33
  if 0 < tr then
    let s := 0.5 / Real.sqrt (tr + 1)
    ⟨(m32 - m23) * s, (m13 - m31) * s, (m21 - m12) * s, 0.25 / s⟩
  else if m22 < m11 ∧ m33 < m11 then
    let s := 2 * Real.sqrt (1 + m11 - m22 - m33)
    ⟨0.25 * s, (m12 + m21) / s, (m13 + m31) / s, (m32 - m23) / s⟩
  else if m33 < m22 then
    let s := 2 * Real.sqrt (1 + m22 - m11 - m33)
    ⟨(m12 + m21) / s, 0.25 * s, (m23 + m32) / s, (m13 - m31) / s⟩
  else
    let s := 2 * Real.sqrt (1 + m33 - m11 - m22)
    ⟨(m13 + m31) / s, (m23 + m32) / s, 0.25 * s, (m21 - m12) / s⟩

/-- `new THREE.Matrix4().lookAt(eye, target, up)` followed by
`Quaternion.setFromRotationMatrix`. -/
def lookAtQuat (eye target up : Vec3) : Quat :=
  let z0 := eye.sub target
  let z1 := if z0.lengthSq = 0 then { z0 with z := 1 } else z0
  let z2 := z1.normalize
  let x0 := up.cross z2
  let zx :=
    if x0.lengthSq = 0 then
      let z3 :=
        if |up.z| = 1 then { z2 with x := z2.x + 0.0001 }
        else { z2 with z := z2.z + 0.0001 }
      let z4 := z3.normalize
      (z4, up.cross z4)
    else (z2, x0)
  let x2 := zx.2.normalize
  let yv := zx.1.cross x2
  quatFromBasis x2 yv zx.1

/-- `Quaternion.slerp(qb, t)` (three.js). -/
def slerpQ (qa qb : Quat) (t : ℝ) : Quat :=
  if t = 0 then qa
  else if t = 1 then qb
  else
    let cht0 := qa.w * qb.w + qa.x * qb.x + qa.y * qb.y + qa.z * qb.z
    let cur : Quat := if cht0 < 0 then ⟨-qb.x, -qb.y, -qb.z, -qb.w⟩ else qb
    let cht := if cht0 < 0 then -cht0 else cht0
    if 1 ≤ cht then qa
    else
      let sqrSin := 1 - cht * cht
      if sqrSin ≤ jsEpsilon then
        Quat.normalizeQ
          ⟨(1 - t) * qa.x + t * cur.x, (1 - t) * qa.y + t * cur.y,
           (1 - t) * qa.z + t * cur.z, (1 - t) * qa.w + t * cur.w⟩
      else
        let sinHalfT := Real.sqrt sqrSin
        let halfTheta := atan2 sinHalfT cht
        let rA := Real.sin ((1 - t) * halfTheta) / sinHalfT
        let rB := Real.sin (t * halfTheta) / sinHalfT
        ⟨qa.x * rA + cur.x * rB, qa.y * rA + cur.y * rB,
         qa.z * rA + cur.z * rB, qa.w * rA + cur.w * rB⟩

/-! ## fishBehavior (src/src/game/fishBehavior.ts) -/

/-- Per-mesh mutable state touched by `fishBehavior`: `mesh.position`,
`mesh.userData.velocity` (absent until first touch), `mesh.quaternion`,
and the `rotation.y` of each child of the group (the tail is child 2). -/
structure AgentState where
  pos : Vec3
  vel : Option Vec3
  quat : Quat
  childRotY : List ℝ

/-- `FishEntry` from fishBehavior.ts, with its mesh state inlined. -/
structure Agent where
  id : String
  fishId : String
  speciesId : String
  state : AgentState

/-- `Bounds` from fishBehavior.ts. -/
structure Bounds where
  halfW : ℝ
  halfH : ℝ
  halfD : ℝ

def SPEED : ℝ := 0.35
def GROUP_RADIUS : ℝ := 1.2
def GROUP_WEIGHT : ℝ := 0.02
def WANDER_WEIGHT : ℝ := 0.008
def TAIL_WAG_SPEED : ℝ := 6
def TAIL_WAG_AMPLITUDE : ℝ := 0.25

/-- The `positions` snapshot map built before the update loop:
`positions.set(f.id, f.mesh.position.clone())` for each entry in order
(a JS `Map`: the last write to a key wins). -/
def positionsGet (fs : List Agent) (i : String) : Option Vec3 :=
  ((fs.filter fun f => f.id = i).getLast?).map fun f => f.state.pos

/-- `bySpecies.get(f.speciesId) ?? []` followed by
`.filter((o) => o.id !== f.id)`: the same-species entries, in insertion
order, excluding `f` itself. -/
def sameSpecies (fs : List Agent) (f : Agent) : List Agent :=
  (fs.filter fun o => o.speciesId = f.speciesId).filter fun o => o.id ≠ f.id

/-- The cohesion accumulation loop: sum of snapshot positions of
same-species neighbours strictly within `GROUP_RADIUS` of `pos`,
together with their count. -/
def cohesionAccum (fs : List Agent) (f : Agent) (pos : Vec3) : Vec3 × ℕ :=
  (sameSpecies fs f).foldl
    (fun acc other =>
      match positionsGet fs other.id with
      | some op =>
          if pos.dist op < GROUP_RADIUS then (acc.1.add op, acc.2 + 1) else acc
      | none => acc)
    (⟨0, 0, 0⟩, 0)

/-- Cohesion steering: when any neighbour was counted, steer the velocity
toward the centroid by `GROUP_WEIGHT`. -/
def cohere (fs : List Agent) (f : Agent) (pos v : Vec3) : Vec3 :=
  let c := cohesionAccum fs f pos
  if 0 < c.2 then
    v.add (((c.1.scale (1 / (c.2 : ℝ))).sub pos).scale GROUP_WEIGHT)
  else v

/-- Lazy velocity initialisation: `userData.velocity` if present, else a
fresh random vector consuming three `Math.random()` calls. -/
def preVel (rng : ℕ → ℝ) (n : ℕ) (f : Agent) : Vec3 × ℕ :=
  match f.state.vel with
  | some v => (v, n)
  | none =>
      (⟨(rng n - 0.5) * 0.4, (rng (n + 1) - 0.5) * 0.2, (rng (n + 2) - 0.5) * 0.4⟩,
       n + 3)

/-- The wander perturbation (three `Math.random()` calls, vertical axis
weighted at half strength). -/
def wander (v : Vec3) (rng : ℕ → ℝ) (n : ℕ) : Vec3 :=
  ⟨v.x + (rng n - 0.5) * WANDER_WEIGHT,
   v.y + (rng (n + 1) - 0.5) * WANDER_WEIGHT * 0.5,
   v.z + (rng (n + 2) - 0.5) * WANDER_WEIGHT⟩

/-- One axis of the boundary bounce: the two sequential `if`s for a
single coordinate (low side then high side, with damped reflection). -/
def bounceAxis (p v half : ℝ) : ℝ × ℝ :=
  let p1 := if p < -half then -half else p
  let v1 := if p < -half then |v| * 0.5 else v
  let p2 := if half < p1 then half else p1
  let v2 := if half < p1 then -|v1| * 0.5 else v1
  (p2, v2)

/-- The velocity right after `vel.clampLength(0, SPEED)`: lazy
initialisation, cohesion steering, wander, then the clamp. -/
def clampedVel (fs : List Agent) (rng : ℕ → ℝ) (n : ℕ) (f : Agent) : Vec3 :=
  (wander (cohere fs f f.state.pos (preVel rng n f).1) rng
    (preVel rng n f).2).clampLength 0 SPEED

/-- The position right after `pos.add(vel.clone().multiplyScalar(dt))`. -/
def integratedPos (fs : List Agent) (dt : ℝ) (rng : ℕ → ℝ) (n : ℕ)
    (f : Agent) : Vec3 :=
  f.state.pos.add ((clampedVel fs rng n f).scale dt)

/-- The body of the `fishArray.forEach((f, idx) => ...)` loop for one
agent: returns the updated agent and the new `Math.random()` counter. -/
def updateOne (fs : List Agent) (dt : ℝ) (b : Bounds) (rng : ℕ → ℝ)
    (time : ℝ) (n idx : ℕ) (f : Agent) : Agent × ℕ :=
  let vel3 := clampedVel fs rng n f
  let pos1 := integratedPos fs dt rng n f
  let bx := bounceAxis pos1.x vel3.x b.halfW
  let bY := bounceAxis pos1.y vel3.y b.halfH
  let bz := bounceAxis pos1.z vel3.z b.halfD
  let pos2 : Vec3 := ⟨bx.1, bY.1, bz.1⟩
  let vel4 : Vec3 := ⟨bx.2, bY.2, bz.2⟩
  let quat1 :=
    if 0.0001 < vel4.lengthSq then
      slerpQ f.state.quat (lookAtQuat pos2 (pos2.add vel4.normalize) ⟨0, 1, 0⟩) 0.08
    else f.state.quat
  let rots := f.state.childRotY
  let rots1 :=
    if 2 < rots.length then
      rots.set 2 (Real.pi * 0.5 +
        Real.sin (time * TAIL_WAG_SPEED + (idx : ℝ) * 1.7) * TAIL_WAG_AMPLITUDE)
    else rots
  let bob := Real.sin (time * 2.5 + (idx : ℝ) * 2.3) * 0.003
  ({ f with state :=
      { pos := ⟨pos2.x, pos2.y + bob, pos2.z⟩, vel := some vel4,
        quat := quat1, childRotY := rots1 } },
   (preVel rng n f).2 + 3)

/-- One iteration of the `forEach` loop: read the agent at `idx` from
the (mutated-in-place) array, update it, and write it back. -/
def fishStep (fs : List Agent) (dt : ℝ) (b : Bounds) (rng : ℕ → ℝ)
    (time : ℝ) (acc : List Agent × ℕ) (idx : ℕ) : List Agent × ℕ :=
  match acc.1.get? idx with
  | some f =>
      let r := updateOne fs dt b rng time acc.2 idx f
      (acc.1.set idx r.1, r.2)
  | none => acc

/-- `fishBehavior(fishArray, dt, bounds)`: the `forEach` loop, modelled as
a fold over indices carrying the (mutated-in-place) agent array and the
`Math.random()` call counter.  The `positions` snapshot and `bySpecies`
grouping are taken from the initial array, as in the source. -/
def fishBehavior (fishArray : List Agent) (dt : ℝ) (b : Bounds)
    (rng : ℕ → ℝ) (time : ℝ) : List Agent :=
  ((List.range fishArray.length).foldl
    (fishStep fishArray dt b rng time) (fishArray, 0)).1

/-- How many `Math.random()` calls one agent's update consumes: three for
the lazy velocity initialisation (when the velocity is absent) plus
three for the wander. -/
def rngConsumed (f : Agent) : ℕ :=
  (match f.state.vel with
   | some _ => 0
   | none => 3) + 3

/-- `Math.random()` calls consumed by the agents at indices
`[s, idx)` of the initial array. -/
def rngBetween (fs : List Agent) (s idx : ℕ) : ℕ :=
  (((fs.drop s).take (idx - s)).map rngConsumed).sum

/-- Counter value at which agent `idx` starts drawing random numbers. -/
def rngBefore (fs : List Agent) (idx : ℕ) : ℕ := rngBetween fs 0 idx

/-- The constant stream returning `0.5` from every `Math.random()` call
(all wander perturbations vanish). -/
def halfRng : ℕ → ℝ := fun _ => 0.5

/-- The tank bounds of the concrete scenarios: half-extents (2, 1, 1). -/
def cxBounds : Bounds := ⟨2, 1, 1⟩

/-- A single stationary agent resting exactly at the upper y bound. -/
def bobAgent : Agent := ⟨"a", "a", "sp", ⟨⟨0, 1, 0⟩, some ⟨0, 0, 0⟩, ⟨0, 0, 0, 1⟩, []⟩⟩

/-- A second agent for multi-agent instantiations. -/
def bobAgent2 : Agent := ⟨"b", "b", "sp", ⟨⟨0, 0, 0⟩, some ⟨0, 0, 0⟩, ⟨0, 0, 0, 1⟩, []⟩⟩

/-- The agent of the C5 scenario: at (1.9, 0, 0) with velocity (1, 0, 0). -/
def scenAgent : Agent := ⟨"s", "s", "sp", ⟨⟨1.9, 0, 0⟩, some ⟨1, 0, 0⟩, ⟨0, 0, 0, 1⟩, []⟩⟩


end

/-! ## meshBuilders (src/src/game/meshBuilders.ts) -/

/-- `(x + 2³¹) mod 2³² − 2³¹`: coercion of an integer to JS signed 32-bit
(the `| 0` operation). -/
def toInt32 (n : ℤ) : ℤ := (n + 2 ^ 31) % 2 ^ 32 - 2 ^ 31

/-- `Math.imul(a, b)`: 32-bit signed multiplication. -/
def jsImul (a b : ℤ) : ℤ := toInt32 (a * b)

/-- The loop of `hashStr`: `h = (Math.imul(31, h) + s.charCodeAt(i)) | 0`
over the characters of the string, starting from `0`.  Characters are
taken as Unicode code points, which agrees with JS UTF-16 code units on
the Basic Multilingual Plane (all catalog reference strings are ASCII). -/
def hashLoop (s : String) : ℤ :=
  s.data.foldl (fun h c => toInt32 (jsImul 31 h + (c.toNat : ℤ))) 0

/-- `hashStr(s)`: `Math.abs` of the accumulated 32-bit hash. -/
def hashStr (s : String) : ℤ := |hashLoop s|

/-- The hue used by the `buildFishMesh` fallback branch:
`(hashStr(modelRef) % 360) / 360` (exact, over `ℚ`). -/
def fallbackHue (modelRef : String) : ℚ := ((hashStr modelRef % 360 : ℤ) : ℚ) / 360

/-- The result of `buildFishMesh`, abstracted to which dedicated builder
ran; the fallback records the hue passed to `buildGenericFish`. -/
inductive FishModel
  | goldfish
  | neonTetra
  | guppy
  | angelfish
  | betta
  | clownfish
  | dragonFish
  | crystalTetra
  | generic (hue : ℚ)
deriving DecidableEq

/-- The `switch (modelRef)` dispatch of `buildFishMesh`. -/
def buildFishMesh (modelRef : String) : FishModel :=
  if modelRef = "goldfish" then .goldfish
  else if modelRef = "neon_tetra" then .neonTetra
  else if modelRef = "guppy" then .guppy
  else if modelRef = "angelfish" then .angelfish
  else if modelRef = "betta" then .betta
  else if modelRef = "clownfish" then .clownfish
  else if modelRef = "dragon_fish" then .dragonFish
  else if modelRef = "crystal_tetra" then .crystalTetra
  else .generic (fallbackHue modelRef)

/-- The result of `buildDecorationMesh`, abstracted to which builder ran
and with which arguments (`plant` records height, leaf count and the
`hsl` colour arguments). -/
inductive DecoModel
  | plant (height : ℚ) (leafCount : ℕ) (hue sat lig : ℚ)
  | rock (size : ℚ)
  | shell
  | coral
deriving DecidableEq

/-- The `switch (assetRef)` dispatch of `buildDecorationMesh`; the
default branch is the generic small plant `buildPlant(0.25, 3,
hsl(0.35, 0.5, 0.45))`. -/
def buildDecorationMesh (assetRef : String) : DecoModel :=
  if assetRef = "plant_small" then .plant 0.3 4 0.33 0.65 0.4
  else if assetRef = "plant_large" then .plant 0.55 7 0.28 0.6 0.35
  else if assetRef = "rock_small" then .rock 0.08
  else if assetRef = "rock_large" then .rock 0.15
  else if assetRef = "shell" then .shell
  else if assetRef = "coral" then .coral
  else .plant 0.25 3 0.35 0.5 0.45

/-- The recognised fish model references (the non-default switch cases). -/
def fishCatalog : List String :=
  ["goldfish", "neon_tetra", "guppy", "angelfish", "betta", "clownfish",
   "dragon_fish", "crystal_tetra"]

/-- The recognised decoration asset references. -/
def decoCatalog : List String :=
  ["plant_small", "plant_large", "rock_small", "rock_large", "shell", "coral"]

/-! ## Fish-mesh reconciliation (AquariumScene.tsx, first revision,
lines 207–242) -/

namespace Scene

/-- A primitive mesh inside a visual object: its geometry (possibly
absent, matching `child.geometry?`) and its material, which is either a
single material or an array of materials. -/
structure Prim where
  geom : Option ℕ
  mat : ℕ ⊕ List ℕ
deriving DecidableEq

/-- A built visual object: the `THREE.Mesh` descendants of the group. -/
structure VisualObj where
  prims : List Prim
deriving DecidableEq

/-- Observable graphics-resource events of the reconciliation effect. -/
inductive Ev
  | removeFromTank (id : String)
  | disposeGeom (g : ℕ)
  | disposeMat (m : ℕ)
deriving DecidableEq

/-- Whether an event is a `tank.remove` of a visual object (used to
count how many visual objects the effect tears down). -/
def isRemove (e : Ev) : Bool :=
  match e with
  | .removeFromTank _ => true
  | _ => false

/-- The traversal body: `child.geometry?.dispose()` then dispose the
material (each element if it is an array, the single one otherwise). -/
def disposePrim (p : Prim) : List Ev :=
  (match p.geom with
   | some g => [.disposeGeom g]
   | none => []) ++
  (match p.mat with
   | .inl m => [.disposeMat m]
   | .inr ms => ms.map .disposeMat)

/-- Cleanup of one previously-built visual object:
`tank.remove(mesh)` then `mesh.traverse(...)` disposing every primitive. -/
def disposeObj (id : String) (v : VisualObj) : List Ev :=
  .removeFromTank id :: v.prims.foldr (fun p acc => disposePrim p ++ acc) []

/-- One authoritative fish row as consumed by the effect:
`f.id`, `f.fish_species_id`, and `f.fish_species?.model_ref`. -/
structure FishRow where
  id : String
  speciesId : String
  modelRef : Option String
deriving DecidableEq

/-- A rebuilt `fishMeshes` entry: the built object, the random initial
position, and the ids recorded in `userData` / the map value. -/
structure FishVis where
  obj : VisualObj
  posX : ℚ
  posY : ℚ
  posZ : ℚ
  speciesId : String
deriving DecidableEq

/-- `Map.set` on an association list kept in insertion order: an existing
key's value is overwritten in place, a new key is appended. -/
def mapSet (m : List (String × α)) (k : String) (v : α) : List (String × α) :=
  if m.any (fun p => p.1 = k) then
    m.map (fun p => if p.1 = k then (k, v) else p)
  else m ++ [(k, v)]

/-- The fish-mesh reconciliation effect body: dispose every
previously-built visual object (`fishMeshes.forEach` cleanup), clear the
map, then build a fresh visual object for every current row, placing it
at a random position inside the (shrunk-by-0.3) half-extents.  Returns
the new `fishMeshes` map and the emitted resource events.  `build`
abstracts `buildFishMesh`; `rng k` is the k-th `Math.random()` call. -/
def reconcileFish (old : List (String × VisualObj)) (rows : List FishRow)
    (build : String → VisualObj) (rng : ℕ → ℚ) (halfW halfH halfD : ℚ) :
    List (String × FishVis) × List Ev :=
  let evs := old.foldr (fun p acc => disposeObj p.1 p.2 ++ acc) []
  let newMap := rows.enum.foldl
    (fun m kr =>
      mapSet m kr.2.id
        { obj := build (kr.2.modelRef.getD "goldfish"),
          posX := (rng (3 * kr.1) - 0.5) * halfW * 2,
          posY := (rng (3 * kr.1 + 1) - 0.5) * halfH * 1.4,
          posZ := (rng (3 * kr.1 + 2) - 0.5) * halfD * 2,
          speciesId := kr.2.speciesId })
    []
  (newMap, evs)

/-- Concrete scenario data: a previous map of five visual objects … -/
def cxOld : List (String × VisualObj) :=
  [("f1", ⟨[⟨some 1, .inl 101⟩]⟩), ("f2", ⟨[⟨some 2, .inl 102⟩]⟩),
   ("f3", ⟨[⟨some 3, .inl 103⟩]⟩), ("f4", ⟨[⟨some 4, .inl 104⟩]⟩),
   ("f5", ⟨[⟨some 5, .inl 105⟩]⟩)]

/-- … and an authoritative row list that has shrunk to three rows. -/
def cxRows : List FishRow :=
  [⟨"f1", "sp", some "goldfish"⟩, ⟨"f2", "sp", some "goldfish"⟩,
   ⟨"f3", "sp", some "goldfish"⟩]

/-- A concrete builder producing a one-primitive object. -/
def cxBuild : String → VisualObj := fun _ => ⟨[⟨some 9, .inl 109⟩]⟩

/-- A concrete random stream for the rebuilt positions. -/
def cxRngQ : ℕ → ℚ := fun _ => 1 / 2

end Scene

/-! ## Decoration drag (AquariumScene.tsx, third revision) -/

namespace Drag

/-- A material value: either an original material (identified by a
number) or a highlight clone of some material (the emissive-tinted
`mat.clone()` made by `highlightMesh`). -/
inductive Mat
  | base (n : ℕ)
  | highlightClone (orig : Mat)
deriving DecidableEq

/-- `child.material`: a single material or an array of materials. -/
inductive MatVal
  | single (m : Mat)
  | array (ms : List Mat)
deriving DecidableEq

/-- A primitive mesh of a decoration group. -/
structure DMesh where
  id : ℕ
  material : MatVal
deriving DecidableEq

/-- Local position of a decoration group. -/
structure V3 where
  x : ℚ
  y : ℚ
  z : ℚ
deriving DecidableEq

/-- A decoration's top-level group: its position and its mesh children. -/
structure DecoGroup where
  pos : V3
  meshes : List DMesh
deriving DecidableEq

/-- The `dragState` ref. -/
structure DragSt where
  active : Bool
  decorationId : Option String
  mesh : Option DecoGroup
  floorY : ℚ
  startPos : V3
  originalMaterials : List (ℕ × MatVal)
deriving DecidableEq

/-- `Array.isArray(child.material) ? child.material[0] : child.material`
(the element a highlight clone is taken from). -/
def firstMat (mv : MatVal) : Mat :=
  match mv with
  | .single m => m
  | .array ms => ms.headD (.base 0)

/-- `highlightMesh(group)`: clear `originalMaterials`, then for every
primitive record its original material and replace it by an
emissive-tinted clone. -/
def highlightMesh (ds : DragSt) (g : DecoGroup) : DragSt × DecoGroup :=
  ({ ds with originalMaterials := g.meshes.map fun m => (m.id, m.material) },
   { g with meshes := g.meshes.map fun m =>
      { m with material := .single (.highlightClone (firstMat m.material)) } })

/-- One assignment `mesh.material = origMat` of the unhighlight loop. -/
def assignMat (g : DecoGroup) (mid : ℕ) (mv : MatVal) : DecoGroup :=
  { g with meshes := g.meshes.map fun m =>
      if m.id = mid then { m with material := mv } else m }

/-- `unhighlightMesh()`: restore every recorded original material, then
clear the record. -/
def unhighlightMesh (ds : DragSt) (g : DecoGroup) : DragSt × DecoGroup :=
  ({ ds with originalMaterials := [] },
   ds.originalMaterials.foldl (fun g p => assignMat g p.1 p.2) g)

/-- The inner half-extents used for drag clamping:
`halfW = tankWidth / 2 - 0.15` (line 917). -/
def dragHalfW (tankWidth : ℚ) : ℚ := tankWidth / 2 - 0.15

/-- `halfD = tankDepth / 2 - 0.15` (line 918). -/
def dragHalfD (tankDepth : ℚ) : ℚ := tankDepth / 2 - 0.15

/-- `onPointerMove`: with no active drag only the hover cursor changes;
with an active drag and a ray–plane intersection (`hit`, already in
tank-local coordinates — the tank group carries the identity transform),
clamp x and z to the inner half-extents and write them to the dragged
group's position.  Height is never written. -/
def onPointerMove (halfW halfD : ℚ) (ds : DragSt) (hit : Option V3) : DragSt :=
  if ds.active = false ∨ ds.mesh = none then ds
  else
    match ds.mesh, hit with
    | some g, some localPt =>
        let cx := max (-halfW) (min halfW localPt.x)
        let cz := max (-halfD) (min halfD localPt.z)
        { ds with mesh := some { g with pos := { g.pos with x := cx, z := cz } } }
    | _, _ => ds

/-- The outcome of `onPointerUp`: final drag state, the formerly dragged
group (with restored materials), orbit-controls enablement, whether
pointer capture was released, and the `onDecorationDrop` invocations. -/
structure UpResult where
  ds : DragSt
  group : Option DecoGroup
  controlsEnabled : Bool
  captureReleased : Bool
  calls : List (String × ℚ × ℚ × ℚ)
deriving DecidableEq

/-- `onPointerUp` (also registered for `pointercancel`): guarded by
`!ds.active || !ds.mesh || !ds.decorationId` (a JS falsiness test, so an
empty-string id also bails out); otherwise unhighlight, release capture,
re-enable controls, read the final position, reset the drag state, and
invoke the drop callback if one is wired. -/
def onPointerUp (ds : DragSt) (controlsEnabled : Bool) (dropWired : Bool) :
    UpResult :=
  match ds.mesh, ds.decorationId with
  | some g, some did =>
      if ds.active = false ∨ did = "" then
        ⟨ds, some g, controlsEnabled, false, []⟩
      else
        let ug := unhighlightMesh ds g
        let ds2 := { ug.1 with active := false, decorationId := none, mesh := none }
        ⟨ds2, some ug.2, true, true,
         if dropWired then [(did, ug.2.pos.x, ug.2.pos.y, ug.2.pos.z)] else []⟩
  | _, _ => ⟨ds, ds.mesh, controlsEnabled, false, []⟩

/-- `container.addEventListener('pointercancel', onPointerUp)`: the
cancel handler is the very same function as the up handler. -/
def onPointerCancel (ds : DragSt) (controlsEnabled : Bool) (dropWired : Bool) :
    UpResult :=
  onPointerUp ds controlsEnabled dropWired

/-- The effect of one recorded `(meshId, material)` assignment on a
single mesh (the per-mesh view of `assignMat`). -/
def restoreStep (mm : DMesh) (p : ℕ × MatVal) : DMesh :=
  if mm.id = p.1 then { mm with material := p.2 } else mm

/-- A concrete decoration group for the drag scenarios. -/
def wGroup : DecoGroup := ⟨⟨0, 1/5, 0⟩, [⟨1, .single (.base 5)⟩, ⟨2, .array [.base 6, .base 7]⟩]⟩

/-- A concrete active drag state holding `wGroup`. -/
def wDrag : DragSt :=
  ⟨true, some "d1", some wGroup, 0, ⟨0, 0, 0⟩,
   wGroup.meshes.map fun m => (m.id, m.material)⟩

end Drag

/-! ## Lemmas about the simulator embedding -/

lemma updateOne_snd (fs : List Agent) (dt : ℝ) (b : Bounds) (rng : ℕ → ℝ)
    (time : ℝ) (n idx : ℕ) (f : Agent) :
    (updateOne fs dt b rng time n idx f).2 = n + rngConsumed f := by
  cases hv : f.state.vel <;> simp [updateOne, preVel, rngConsumed, hv]

lemma rngBetween_self (fs : List Agent) (s : ℕ) : rngBetween fs s s = 0 := by
  simp [rngBetween]

lemma rngBetween_step (fs : List Agent) (s idx : ℕ) (g : Agent)
    (hs : fs.get? s = some g) (hlt : s < idx) :
    rngBetween fs s idx = rngConsumed g + rngBetween fs (s + 1) idx := by
  have hslen : s < fs.length := by
    by_contra hc
    rw [List.get?_eq_none.mpr (le_of_not_lt hc)] at hs
    exact Option.noConfusion hs
  have hdrop : fs.drop s = g :: fs.drop (s + 1) := by
    have := List.drop_eq_getElem_cons hslen
    rw [this]
    congr 1
    have : fs[s]? = some fs[s] := List.getElem?_eq_getElem hslen
    rw [← List.get?_eq_getElem?] at this
    rw [hs] at this
    exact (Option.some.injEq _ _ ▸ this).symm
  have hsub : idx - s = (idx - (s + 1)) + 1 := by omega
  rw [rngBetween, rngBetween, hdrop, hsub, List.take_succ_cons, List.map_cons,
    List.sum_cons]

lemma fishLoop_get_lt (fs : List Agent) (dt : ℝ) (b : Bounds) (rng : ℕ → ℝ)
    (time : ℝ) :
    ∀ (n s : ℕ) (cur : List Agent) (cnt : ℕ) (j : ℕ), j < s →
      ((List.range' s n).foldl (fishStep fs dt b rng time) (cur, cnt)).1.get? j
        = cur.get? j := by
  intro n
  induction n with
  | zero => intro s cur cnt j _; simp
  | succ n ih =>
      intro s cur cnt j hj
      rw [List.range'_succ, List.foldl_cons]
      cases hm : cur.get? s with
      | none =>
          simp only [fishStep, hm]
          exact ih (s + 1) cur cnt j (by omega)
      | some g =>
          simp only [fishStep, hm]
          rw [ih (s + 1) _ _ j (by omega)]
          exact List.get?_set_ne _ _ (by omega)

lemma fishLoop_get (fs : List Agent) (dt : ℝ) (b : Bounds) (rng : ℕ → ℝ)
    (time : ℝ) :
    ∀ (n s : ℕ) (cur : List Agent) (cnt : ℕ),
      cur.length = fs.length →
      (∀ j, s ≤ j → cur.get? j = fs.get? j) →
      ∀ idx f, s ≤ idx → idx < s + n → fs.get? idx = some f →
      ((List.range' s n).foldl (fishStep fs dt b rng time) (cur, cnt)).1.get? idx
        = some (updateOne fs dt b rng time (cnt + rngBetween fs s idx) idx f).1 := by
  intro n
  induction n with
  | zero => intro s cur cnt _ _ idx f h1 h2 _; omega
  | succ n ih =>
      intro s cur cnt hlen hagree idx f hs hlt hf
      have hidxlen : idx < fs.length := by
        by_contra hc
        rw [List.get?_eq_none.mpr (le_of_not_lt hc)] at hf
        exact Option.noConfusion hf
      have hslen : s < fs.length := by omega
      obtain ⟨g, hg⟩ : ∃ g, fs.get? s = some g := by
        cases hgs : fs.get? s with
        | none =>
            rw [List.get?_eq_none] at hgs; omega
        | some g => exact ⟨g, rfl⟩
      have hcur : cur.get? s = some g := by rw [hagree s le_rfl]; exact hg
      rw [List.range'_succ, List.foldl_cons]
      simp only [fishStep, hcur]
      rw [updateOne_snd]
      rcases eq_or_lt_of_le hs with heq | hlt2
      · subst heq
        have hfg : f = g := by rw [hf] at hg; exact Option.some.inj hg
        subst hfg
        rw [fishLoop_get_lt fs dt b rng time n (s + 1) _ _ s (by omega)]
        rw [rngBetween_self, Nat.add_zero]
        exact List.get?_set_eq_of_lt _ (by omega)
      · rw [ih (s + 1) _ _ (by simpa using hlen)
          (fun j hj => by
            rw [List.get?_set_ne _ _ (by omega)]
            exact hagree j (by omega))
          idx f (by omega) (by omega) hf]
        rw [rngBetween_step fs s idx g hg hlt2, Nat.add_assoc]

/-- Every output slot of `fishBehavior` is the input agent at that index
updated by `updateOne` against the **initial** array (positions snapshot
and species grouping), with a random counter determined by the initial
array alone. -/
lemma fishBehavior_get (fs : List Agent) (dt : ℝ) (b : Bounds)
    (rng : ℕ → ℝ) (time : ℝ) (idx : ℕ) (f : Agent)
    (h : fs.get? idx = some f) :
    (fishBehavior fs dt b rng time).get? idx
      = some (updateOne fs dt b rng time (rngBefore fs idx) idx f).1 := by
  have hidxlen : idx < fs.length := by
    by_contra hc
    rw [List.get?_eq_none.mpr (le_of_not_lt hc)] at h
    exact Option.noConfusion h
  unfold fishBehavior
  rw [List.range_eq_range']
  have := fishLoop_get fs dt b rng time fs.length 0 fs 0 rfl
    (fun _ _ => rfl) idx f (Nat.zero_le _) (by omega) h
  rw [this, Nat.zero_add]
  rfl

lemma Vec3.length_nonneg (a : Vec3) : 0 ≤ a.length := Real.sqrt_nonneg _

lemma Vec3.length_scale (a : Vec3) (c : ℝ) :
    (a.scale c).length = |c| * a.length := by
  unfold Vec3.length Vec3.lengthSq Vec3.scale
  dsimp only
  rw [show (a.x * c) ^ 2 + (a.y * c) ^ 2 + (a.z * c) ^ 2
      = c ^ 2 * (a.x ^ 2 + a.y ^ 2 + a.z ^ 2) by ring]
  rw [Real.sqrt_mul (sq_nonneg c), Real.sqrt_sq_eq_abs]

lemma Vec3.length_le_of_abs_le (a b : Vec3)
    (hx : |a.x| ≤ |b.x|) (hy : |a.y| ≤ |b.y|) (hz : |a.z| ≤ |b.z|) :
    a.length ≤ b.length := by
  unfold Vec3.length Vec3.lengthSq
  apply Real.sqrt_le_sqrt
  have h1 : a.x ^ 2 ≤ b.x ^ 2 := by
    rw [← sq_abs a.x, ← sq_abs b.x]; exact pow_le_pow_left (abs_nonneg _) hx 2
  have h2 : a.y ^ 2 ≤ b.y ^ 2 := by
    rw [← sq_abs a.y, ← sq_abs b.y]; exact pow_le_pow_left (abs_nonneg _) hy 2
  have h3 : a.z ^ 2 ≤ b.z ^ 2 := by
    rw [← sq_abs a.z, ← sq_abs b.z]; exact pow_le_pow_left (abs_nonneg _) hz 2
  linarith

lemma Vec3.length_clampLength_le (a : Vec3) :
    (a.clampLength 0 SPEED).length ≤ SPEED := by
  have hS : (0 : ℝ) < SPEED := by norm_num [SPEED]
  unfold Vec3.clampLength
  rw [Vec3.length_scale, Vec3.length_scale]
  by_cases hL : a.length = 0
  · rw [if_pos hL, hL, mul_zero, mul_zero]
    exact hS.le
  · rw [if_neg hL]
    rw [abs_of_nonneg (le_max_left (0:ℝ) (min SPEED a.length)),
      abs_of_nonneg (div_nonneg zero_le_one (Vec3.length_nonneg a)),
      one_div_mul_cancel hL, mul_one]
    exact max_le hS.le (min_le_left _ _)

lemma bounceAxis_fst_abs_le (p v half : ℝ) (h : 0 ≤ half) :
    |(bounceAxis p v half).1| ≤ half := by
  unfold bounceAxis
  dsimp only
  split_ifs with h1 h2 h2 <;> rw [abs_le] <;> constructor <;> linarith

lemma bounceAxis_snd_abs_le (p v half : ℝ) :
    |(bounceAxis p v half).2| ≤ |v| := by
  have hv : (0 : ℝ) ≤ |v| := abs_nonneg v
  unfold bounceAxis
  dsimp only
  split_ifs <;>
    (try simp only [abs_mul, abs_neg, abs_abs,
      abs_of_nonneg (by norm_num : (0:ℝ) ≤ (0.5:ℝ))]) <;>
    nlinarith

/-- The x coordinate written by `updateOne`. -/
lemma updateOne_pos_x (fs : List Agent) (dt : ℝ) (b : Bounds)
    (rng : ℕ → ℝ) (time : ℝ) (n idx : ℕ) (f : Agent) :
    (updateOne fs dt b rng time n idx f).1.state.pos.x
      = (bounceAxis (integratedPos fs dt rng n f).x
          (clampedVel fs rng n f).x b.halfW).1 := rfl

/-- The y coordinate written by `updateOne`: the bounce-clamped value
plus the cosmetic bob. -/
lemma updateOne_pos_y (fs : List Agent) (dt : ℝ) (b : Bounds)
    (rng : ℕ → ℝ) (time : ℝ) (n idx : ℕ) (f : Agent) :
    (updateOne fs dt b rng time n idx f).1.state.pos.y
      = (bounceAxis (integratedPos fs dt rng n f).y
          (clampedVel fs rng n f).y b.halfH).1
        + Real.sin (time * 2.5 + (idx : ℝ) * 2.3) * 0.003 := rfl

/-- The z coordinate written by `updateOne`. -/
lemma updateOne_pos_z (fs : List Agent) (dt : ℝ) (b : Bounds)
    (rng : ℕ → ℝ) (time : ℝ) (n idx : ℕ) (f : Agent) :
    (updateOne fs dt b rng time n idx f).1.state.pos.z
      = (bounceAxis (integratedPos fs dt rng n f).z
          (clampedVel fs rng n f).z b.halfD).1 := rfl

/-- The velocity written by `updateOne`: the clamped velocity with each
component rewritten by its axis bounce. -/
lemma updateOne_vel (fs : List Agent) (dt : ℝ) (b : Bounds)
    (rng : ℕ → ℝ) (time : ℝ) (n idx : ℕ) (f : Agent) :
    (updateOne fs dt b rng time n idx f).1.state.vel
      = some ⟨(bounceAxis (integratedPos fs dt rng n f).x
                (clampedVel fs rng n f).x b.halfW).2,
              (bounceAxis (integratedPos fs dt rng n f).y
                (clampedVel fs rng n f).y b.halfH).2,
              (bounceAxis (integratedPos fs dt rng n f).z
                (clampedVel fs rng n f).z b.halfD).2⟩ := rfl

lemma sameSpecies_single (f : Agent) : sameSpecies [f] f = [] := by
  simp [sameSpecies]

lemma cohere_single (f : Agent) (pos v : Vec3) : cohere [f] f pos v = v := by
  simp [cohere, cohesionAccum, sameSpecies_single]

lemma preVel_some (rng : ℕ → ℝ) (n : ℕ) (f : Agent) (v : Vec3)
    (h : f.state.vel = some v) : preVel rng n f = (v, n) := by
  unfold preVel; rw [h]


lemma wander_half (v : Vec3) (n : ℕ) : wander v halfRng n = v := by
  unfold wander halfRng WANDER_WEIGHT
  norm_num

lemma clampLength_zero_vec : (Vec3.mk 0 0 0).clampLength 0 SPEED = ⟨0, 0, 0⟩ := by
  unfold Vec3.clampLength Vec3.length Vec3.lengthSq Vec3.scale
  norm_num

lemma bounceAxis_fst_of_within (p v half : ℝ) (h : |p| ≤ half) :
    (bounceAxis p v half).1 = p := by
  rw [abs_le] at h
  unfold bounceAxis
  dsimp only
  rw [if_neg (show ¬p < -half by linarith)]
  rw [if_neg (show ¬half < p by linarith)]

/-- A bounce axis where the position is already within the half-extent
does nothing. -/
lemma bounceAxis_of_within (p v half : ℝ) (h : |p| ≤ half) :
    bounceAxis p v half = (p, v) := by
  rw [abs_le] at h
  unfold bounceAxis
  dsimp only
  simp only [if_neg (show ¬p < -half by linarith),
    if_neg (show ¬half < p by linarith)]

lemma bobAgent_clampedVel (n : ℕ) :
    clampedVel [bobAgent] halfRng n bobAgent = ⟨0, 0, 0⟩ := by
  unfold clampedVel
  rw [preVel_some halfRng n bobAgent ⟨0, 0, 0⟩ rfl]
  dsimp only
  rw [cohere_single, wander_half]
  exact clampLength_zero_vec

lemma bobAgent_integratedPos (dt : ℝ) (n : ℕ) :
    integratedPos [bobAgent] dt halfRng n bobAgent = ⟨0, 1, 0⟩ := by
  unfold integratedPos
  rw [bobAgent_clampedVel]
  show (Vec3.mk 0 1 0).add ((Vec3.mk 0 0 0).scale dt) = Vec3.mk 0 1 0
  unfold Vec3.add Vec3.scale
  norm_num

/-- Full evaluation of one update of `bobAgent` under the `0.5` random
stream: the clamped velocity is zero, no bounce fires, and only the bob
moves the y coordinate. -/
lemma bobAgent_eval (dt time : ℝ) (n : ℕ) :
    (updateOne [bobAgent] dt cxBounds halfRng time n 0 bobAgent).1.state.pos.y
        = 1 + Real.sin (time * 2.5 + ((0 : ℕ) : ℝ) * 2.3) * 0.003
      ∧ (updateOne [bobAgent] dt cxBounds halfRng time n 0 bobAgent).1.state.vel
        = some ⟨0, 0, 0⟩ := by
  constructor
  · rw [updateOne_pos_y, bobAgent_integratedPos, bobAgent_clampedVel]
    norm_num [bounceAxis, cxBounds]
  · rw [updateOne_vel, bobAgent_integratedPos, bobAgent_clampedVel]
    norm_num [bounceAxis, cxBounds]

lemma scen_wander (rng : ℕ → ℝ) (n : ℕ) :
    wander ⟨1, 0, 0⟩ rng n
      = ⟨1 + (rng n - 0.5) * 0.008, (rng (n + 1) - 0.5) * 0.004,
         (rng (n + 2) - 0.5) * 0.008⟩ := by
  unfold wander WANDER_WEIGHT
  simp only [Vec3.mk.injEq]
  refine ⟨by ring, by ring, by ring⟩

/-- Arithmetic core of the bounce scenario: a velocity (1 + d1, d2, d3)
with the wander perturbations in range clamps to a vector whose x
component still exceeds 0.1. -/
lemma clamped_x_gt (d1 d2 d3 : ℝ)
    (h1 : |d1| ≤ 0.004) (h2 : |d2| ≤ 0.002) (h3 : |d3| ≤ 0.004) :
    0.1 < ((Vec3.mk (1 + d1) d2 d3).clampLength 0 SPEED).x := by
  obtain ⟨h1a, h1b⟩ := abs_le.mp h1
  obtain ⟨h2a, h2b⟩ := abs_le.mp h2
  obtain ⟨h3a, h3b⟩ := abs_le.mp h3
  set s := (1 + d1) ^ 2 + d2 ^ 2 + d3 ^ 2 with hs
  have hs_nonneg : 0 ≤ s := by positivity
  have hL : (Vec3.mk (1 + d1) d2 d3).length = Real.sqrt s := by rw [hs]; rfl
  have hLsq : Real.sqrt s ^ 2 = s := Real.sq_sqrt hs_nonneg
  have hLnn : 0 ≤ Real.sqrt s := Real.sqrt_nonneg s
  have hs_gt : 0.1225 < s := by
    rw [hs]
    nlinarith [sq_nonneg d2, sq_nonneg d3, sq_nonneg (1 + d1 - 0.996)]
  have hLgt : 0.35 < Real.sqrt s := by nlinarith [hLsq, hLnn, hs_gt]
  have hLpos : 0 < Real.sqrt s := by linarith
  have hLne : Real.sqrt s ≠ 0 := ne_of_gt hLpos
  have hSle : SPEED ≤ Real.sqrt s := by
    rw [show SPEED = (0.35 : ℝ) from rfl]; exact hLgt.le
  unfold Vec3.clampLength
  rw [hL, if_neg hLne, min_eq_left hSle,
    max_eq_right (by norm_num [SPEED] : (0:ℝ) ≤ SPEED)]
  show 0.1 < (1 + d1) * (1 / Real.sqrt s) * SPEED
  unfold SPEED
  rw [show (1 + d1) * (1 / Real.sqrt s) * (0.35 : ℝ)
      = 0.35 * (1 + d1) / Real.sqrt s by ring]
  rw [lt_div_iff hLpos]
  have hrhs : 0 ≤ 0.35 * (1 + d1) := by nlinarith
  have hsq : (0.1 * Real.sqrt s) ^ 2 < (0.35 * (1 + d1)) ^ 2 := by
    have he : (0.1 * Real.sqrt s) ^ 2 = 0.01 * s := by
      rw [mul_pow, hLsq]; ring
    rw [he, hs]
    nlinarith [sq_nonneg (1 + d1 - 0.996)]
  exact lt_of_pow_lt_pow_left 2 hrhs hsq

lemma scen_clampedVel_x (rng : ℕ → ℝ) (hr : ∀ k, 0 ≤ rng k ∧ rng k < 1)
    (n : ℕ) : 0.1 < (clampedVel [scenAgent] rng n scenAgent).x := by
  unfold clampedVel
  rw [preVel_some rng n scenAgent ⟨1, 0, 0⟩ rfl]
  dsimp only
  rw [cohere_single, scen_wander]
  apply clamped_x_gt
  · obtain ⟨ha, hb⟩ := hr n
    rw [abs_le]; constructor <;> linarith
  · obtain ⟨ha, hb⟩ := hr (n + 1)
    rw [abs_le]; constructor <;> linarith
  · obtain ⟨ha, hb⟩ := hr (n + 2)
    rw [abs_le]; constructor <;> linarith

/-! ## Claim theorems for the simulator -/

/-- C1, counterexample: with half-extents (2, 1, 1), a stationary agent
resting at y = halfH = 1 and the neutral random stream, one
`fishBehavior` call at time π/5 leaves the agent at y = 1.003 — strictly
above the supplied half-extent, because the cosmetic bob is added after
the boundary clamp. -/
theorem c1_bob_exceeds_halfH :
    (((fishBehavior [bobAgent] 1 cxBounds halfRng (Real.pi / 5)).get? 0).map
        fun a => a.state.pos.y) = some 1.003 ∧ cxBounds.halfH < 1.003 := by
  constructor
  · rw [fishBehavior_get [bobAgent] 1 cxBounds halfRng (Real.pi / 5) 0 bobAgent rfl]
    simp only [Option.map_some']
    rw [(bobAgent_eval 1 (Real.pi / 5) (rngBefore [bobAgent] 0)).1]
    have harg : Real.pi / 5 * 2.5 + ((0 : ℕ) : ℝ) * 2.3 = Real.pi / 2 := by
      push_cast; ring
    rw [harg, Real.sin_pi_div_two]
    norm_num
  · norm_num [cxBounds]

/-- C1, amended: after any `fishBehavior` call with nonnegative
half-extents, every agent's x and z coordinates are within the supplied
half-extents; the y coordinate is within the y half-extent enlarged by
the bob amplitude 0.003 (the bob is applied after the clamp, so y alone
may exceed `halfH` by up to 0.003). -/
theorem c1_positions_clamped_up_to_bob (fs : List Agent) (dt : ℝ)
    (b : Bounds) (rng : ℕ → ℝ) (time : ℝ) (idx : ℕ) (f a : Agent)
    (hW : 0 ≤ b.halfW) (hH : 0 ≤ b.halfH) (hD : 0 ≤ b.halfD)
    (hf : fs.get? idx = some f)
    (ha : (fishBehavior fs dt b rng time).get? idx = some a) :
    |a.state.pos.x| ≤ b.halfW ∧ |a.state.pos.y| ≤ b.halfH + 0.003 ∧
      |a.state.pos.z| ≤ b.halfD := by
  rw [fishBehavior_get fs dt b rng time idx f hf] at ha
  have ha' := Option.some.inj ha
  subst ha'
  rw [updateOne_pos_x, updateOne_pos_y, updateOne_pos_z]
  refine ⟨bounceAxis_fst_abs_le _ _ _ hW, ?_, bounceAxis_fst_abs_le _ _ _ hD⟩
  have h1 := bounceAxis_fst_abs_le (integratedPos fs dt rng (rngBefore fs idx) f).y
    (clampedVel fs rng (rngBefore fs idx) f).y b.halfH hH
  have h2 : |Real.sin (time * 2.5 + (idx : ℝ) * 2.3) * 0.003| ≤ 0.003 := by
    rw [abs_mul, abs_of_nonneg (by norm_num : (0:ℝ) ≤ 0.003)]
    have hs : |Real.sin (time * 2.5 + (idx : ℝ) * 2.3)| ≤ 1 :=
      abs_le.mpr ⟨Real.neg_one_le_sin _, Real.sin_le_one _⟩
    nlinarith
  exact (abs_add _ _).trans (add_le_add h1 h2)

/-- C1, witness for the amended theorem, at the concrete scenario agent. -/
theorem c1_positions_clamped_witness :
    |(updateOne [bobAgent] 1 cxBounds halfRng 0 (rngBefore [bobAgent] 0)
        0 bobAgent).1.state.pos.x| ≤ cxBounds.halfW ∧
    |(updateOne [bobAgent] 1 cxBounds halfRng 0 (rngBefore [bobAgent] 0)
        0 bobAgent).1.state.pos.y| ≤ cxBounds.halfH + 0.003 ∧
    |(updateOne [bobAgent] 1 cxBounds halfRng 0 (rngBefore [bobAgent] 0)
        0 bobAgent).1.state.pos.z| ≤ cxBounds.halfD :=
  c1_positions_clamped_up_to_bob [bobAgent] 1 cxBounds halfRng 0 0 bobAgent _
    (by norm_num [cxBounds]) (by norm_num [cxBounds]) (by norm_num [cxBounds])
    rfl (fishBehavior_get [bobAgent] 1 cxBounds halfRng 0 0 bobAgent rfl)

/-- C4: after any `fishBehavior` call, every agent's stored velocity has
magnitude at most `SPEED` (= 0.35): the wander/cohesion result is clamped
to `SPEED`, and each boundary bounce rewrites a component to half its
absolute value, which can only shrink the norm. -/
theorem c4_speed_bounded (fs : List Agent) (dt : ℝ) (b : Bounds)
    (rng : ℕ → ℝ) (time : ℝ) (idx : ℕ) (f a : Agent) (v : Vec3)
    (hf : fs.get? idx = some f)
    (ha : (fishBehavior fs dt b rng time).get? idx = some a)
    (hv : a.state.vel = some v) :
    v.length ≤ SPEED := by
  rw [fishBehavior_get fs dt b rng time idx f hf] at ha
  have ha' := Option.some.inj ha
  subst ha'
  rw [updateOne_vel] at hv
  have hv' := Option.some.inj hv
  subst hv'
  exact (Vec3.length_le_of_abs_le _ (clampedVel fs rng (rngBefore fs idx) f)
    (bounceAxis_snd_abs_le _ _ _) (bounceAxis_snd_abs_le _ _ _)
    (bounceAxis_snd_abs_le _ _ _)).trans (Vec3.length_clampLength_le _)

/-- C4, witness at the concrete scenario: the updated stationary agent's
velocity is the zero vector, of length ≤ SPEED. -/
theorem c4_speed_bounded_witness : (Vec3.mk 0 0 0).length ≤ SPEED :=
  c4_speed_bounded [bobAgent] 1 cxBounds halfRng 0 0 bobAgent
    ((updateOne [bobAgent] 1 cxBounds halfRng 0 (rngBefore [bobAgent] 0)
        0 bobAgent).1) ⟨0, 0, 0⟩
    rfl (fishBehavior_get [bobAgent] 1 cxBounds halfRng 0 0 bobAgent rfl)
    (bobAgent_eval 1 0 (rngBefore [bobAgent] 0)).2

/-- C2, counterexample: a `fishBehavior` call with `dt = 0` is not a
no-op.  The stationary agent at y = 1, under the neutral random stream
and time π/5, ends at y = 1.003 ≠ 1: the cosmetic bob is applied
independently of `dt`. -/
theorem c2_dt_zero_not_noop :
    (((fishBehavior [bobAgent] 0 cxBounds halfRng (Real.pi / 5)).get? 0).map
        fun a => a.state.pos.y) = some 1.003
      ∧ bobAgent.state.pos.y = 1 ∧ (1.003 : ℝ) ≠ 1 := by
  refine ⟨?_, rfl, by norm_num⟩
  rw [fishBehavior_get [bobAgent] 0 cxBounds halfRng (Real.pi / 5) 0 bobAgent rfl]
  simp only [Option.map_some']
  rw [(bobAgent_eval 0 (Real.pi / 5) (rngBefore [bobAgent] 0)).1]
  have harg : Real.pi / 5 * 2.5 + ((0 : ℕ) : ℝ) * 2.3 = Real.pi / 2 := by
    push_cast; ring
  rw [harg, Real.sin_pi_div_two]
  norm_num

/-- C2, amended: calling `fishBehavior` with an empty agent list is a
strict no-op (the result is the empty list, no state is touched, and no
exception can arise — the embedding is total).  A call with `dt = 0` is
**not** a no-op in general (wander, cohesion, velocity clamping, the
reorientation and the cosmetic bob all still apply); what does hold is
that with `dt = 0` the x and z coordinates of an agent already within
the x/z half-extents are left unchanged. -/
theorem c2_empty_noop_dt_zero_xz (dt : ℝ) (b0 : Bounds) (rng0 : ℕ → ℝ)
    (time0 : ℝ) (fs : List Agent) (b : Bounds) (rng : ℕ → ℝ) (time : ℝ)
    (idx : ℕ) (f a : Agent)
    (hf : fs.get? idx = some f)
    (ha : (fishBehavior fs 0 b rng time).get? idx = some a)
    (hx : |f.state.pos.x| ≤ b.halfW) (hz : |f.state.pos.z| ≤ b.halfD) :
    fishBehavior [] dt b0 rng0 time0 = []
      ∧ a.state.pos.x = f.state.pos.x ∧ a.state.pos.z = f.state.pos.z := by
  rw [fishBehavior_get fs 0 b rng time idx f hf] at ha
  have ha' := Option.some.inj ha
  subst ha'
  refine ⟨rfl, ?_, ?_⟩
  · rw [updateOne_pos_x]
    have hip : (integratedPos fs 0 rng (rngBefore fs idx) f).x = f.state.pos.x := by
      show f.state.pos.x + (clampedVel fs rng (rngBefore fs idx) f).x * 0
        = f.state.pos.x
      ring
    rw [hip]
    exact bounceAxis_fst_of_within _ _ _ hx
  · rw [updateOne_pos_z]
    have hip : (integratedPos fs 0 rng (rngBefore fs idx) f).z = f.state.pos.z := by
      show f.state.pos.z + (clampedVel fs rng (rngBefore fs idx) f).z * 0
        = f.state.pos.z
      ring
    rw [hip]
    exact bounceAxis_fst_of_within _ _ _ hz

/-- C2, witness for the amended theorem, at the concrete scenario. -/
theorem c2_empty_noop_witness :
    fishBehavior [] 1 cxBounds halfRng 0 = []
      ∧ (updateOne [bobAgent] 0 cxBounds halfRng 0 (rngBefore [bobAgent] 0)
          0 bobAgent).1.state.pos.x = bobAgent.state.pos.x
      ∧ (updateOne [bobAgent] 0 cxBounds halfRng 0 (rngBefore [bobAgent] 0)
          0 bobAgent).1.state.pos.z = bobAgent.state.pos.z :=
  c2_empty_noop_dt_zero_xz 1 cxBounds halfRng 0 [bobAgent] cxBounds halfRng 0
    0 bobAgent _ rfl
    (fishBehavior_get [bobAgent] 0 cxBounds halfRng 0 0 bobAgent rfl)
    (by norm_num [bobAgent, cxBounds]) (by norm_num [bobAgent, cxBounds])

/-- C5: with half-extents (2, 1, 1), one agent at (1.9, 0, 0) with
velocity (1, 0, 0), after one `fishBehavior` call with dt = 1 (any
random stream with values in [0, 1), any time) the agent sits exactly at
x = 2 and its x velocity is negative: the clamped speed stays above 0.1
on the x axis, the integration overshoots the wall, and the bounce
clamps the position and flips a damped velocity. -/
theorem c5_bounce_scenario (rng : ℕ → ℝ) (hr : ∀ k, 0 ≤ rng k ∧ rng k < 1)
    (time : ℝ) (a : Agent) (v : Vec3)
    (ha : (fishBehavior [scenAgent] 1 cxBounds rng time).get? 0 = some a)
    (hv : a.state.vel = some v) :
    a.state.pos.x = 2 ∧ v.x < 0 := by
  rw [fishBehavior_get [scenAgent] 1 cxBounds rng time 0 scenAgent rfl] at ha
  have ha' := Option.some.inj ha
  subst ha'
  have hvx := scen_clampedVel_x rng hr (rngBefore [scenAgent] 0)
  have hpos1 : (integratedPos [scenAgent] 1 rng (rngBefore [scenAgent] 0)
      scenAgent).x
      = 1.9 + (clampedVel [scenAgent] rng (rngBefore [scenAgent] 0) scenAgent).x := by
    show (1.9 : ℝ) + (clampedVel [scenAgent] rng (rngBefore [scenAgent] 0)
        scenAgent).x * 1
      = 1.9 + (clampedVel [scenAgent] rng (rngBefore [scenAgent] 0) scenAgent).x
    ring
  have hcond1 : ¬(1.9 + (clampedVel [scenAgent] rng (rngBefore [scenAgent] 0)
      scenAgent).x < -cxBounds.halfW) := by
    rw [show cxBounds.halfW = (2 : ℝ) from rfl]
    push_neg; linarith
  have hcond2 : cxBounds.halfW
      < 1.9 + (clampedVel [scenAgent] rng (rngBefore [scenAgent] 0) scenAgent).x := by
    rw [show cxBounds.halfW = (2 : ℝ) from rfl]
    linarith
  constructor
  · rw [updateOne_pos_x, hpos1]
    unfold bounceAxis
    dsimp only
    rw [if_neg hcond1, if_pos hcond2]
    rfl
  · rw [updateOne_vel] at hv
    have hv' := Option.some.inj hv
    subst hv'
    show (bounceAxis (integratedPos [scenAgent] 1 rng (rngBefore [scenAgent] 0)
        scenAgent).x
      (clampedVel [scenAgent] rng (rngBefore [scenAgent] 0) scenAgent).x
      cxBounds.halfW).2 < 0
    rw [hpos1]
    unfold bounceAxis
    dsimp only
    simp only [if_neg hcond1, if_pos hcond2]
    have habs : 0 < |(clampedVel [scenAgent] rng (rngBefore [scenAgent] 0)
        scenAgent).x| := abs_pos.mpr (by linarith)
    nlinarith

/-- C5, witness: the scenario theorem applied to the constant 0.5 random
stream at time 0. -/
theorem c5_bounce_witness :
    (∀ k, 0 ≤ halfRng k ∧ halfRng k < 1)
      ∧ (updateOne [scenAgent] 1 cxBounds halfRng 0 (rngBefore [scenAgent] 0)
          0 scenAgent).1.state.pos.x = 2 :=
  ⟨fun _ => by norm_num [halfRng],
   (c5_bounce_scenario halfRng (fun _ => by norm_num [halfRng]) 0 _ _
      (fishBehavior_get [scenAgent] 1 cxBounds halfRng 0 0 scenAgent rfl)
      (updateOne_vel [scenAgent] 1 cxBounds halfRng 0 (rngBefore [scenAgent] 0)
        0 scenAgent)).1⟩

/-- C10: each agent's update is a function of the **initial** agent
array alone — `updateOne` reads the `positions` snapshot
(`positionsGet fs`), the `bySpecies` grouping (`sameSpecies fs`) and the
agent's own pre-update state, all taken before the loop ran — so the
cohesion centroid applied to an agent never depends on the in-place
position updates already applied to earlier agents in the same call. -/
theorem c10_snapshot_cohesion (fs : List Agent) (dt : ℝ) (b : Bounds)
    (rng : ℕ → ℝ) (time : ℝ) (idx : ℕ) (f : Agent)
    (h : fs.get? idx = some f) :
    (fishBehavior fs dt b rng time).get? idx
      = some (updateOne fs dt b rng time (rngBefore fs idx) idx f).1 :=
  fishBehavior_get fs dt b rng time idx f h

/-- C10, witness on a concrete two-agent list (second agent). -/
theorem c10_snapshot_witness :
    ([bobAgent, bobAgent2].get? 1 = some bobAgent2)
      ∧ (fishBehavior [bobAgent, bobAgent2] 1 cxBounds halfRng 0).get? 1
        = some (updateOne [bobAgent, bobAgent2] 1 cxBounds halfRng 0
            (rngBefore [bobAgent, bobAgent2] 1) 1 bobAgent2).1 :=
  ⟨rfl, c10_snapshot_cohesion [bobAgent, bobAgent2] 1 cxBounds halfRng 0 1
    bobAgent2 rfl⟩

/-! ## Lemmas about the reconciliation effect -/

namespace Scene

lemma disposePrim_no_remove (pr : Prim) :
    ∀ e ∈ disposePrim pr, isRemove e = false := by
  intro e he
  unfold disposePrim at he
  rcases List.mem_append.mp he with h | h
  · cases hg : pr.geom <;> rw [hg] at h
    · simp at h
    · simp only [List.mem_singleton] at h
      subst h; rfl
  · cases hm : pr.mat <;> rw [hm] at h
    · simp only [List.mem_singleton] at h
      subst h; rfl
    · rcases List.mem_map.mp h with ⟨m, -, hme⟩
      subst hme; rfl

lemma no_remove_prims (prims : List Prim) :
    ∀ e ∈ prims.foldr (fun pr acc => disposePrim pr ++ acc) [],
      isRemove e = false := by
  induction prims with
  | nil => intro e he; simp at he
  | cons pr rest ih =>
      intro e he
      rw [List.foldr_cons] at he
      rcases List.mem_append.mp he with h | h
      · exact disposePrim_no_remove pr e h
      · exact ih e h

lemma countP_disposeObj (id : String) (v : VisualObj) :
    (disposeObj id v).countP isRemove = 1 := by
  unfold disposeObj
  rw [List.countP_cons]
  have h0 : (v.prims.foldr (fun pr acc => disposePrim pr ++ acc) []).countP
      isRemove = 0 := by
    rw [List.countP_eq_zero]
    intro e he
    rw [no_remove_prims v.prims e he]
    exact Bool.false_ne_true
  rw [h0]
  rfl

lemma count_remove_evs (old : List (String × VisualObj)) :
    ((old.foldr (fun p acc => disposeObj p.1 p.2 ++ acc) []).countP isRemove)
      = old.length := by
  induction old with
  | nil => rfl
  | cons p rest ih =>
      rw [List.foldr_cons, List.countP_append, ih, countP_disposeObj]
      simp [Nat.add_comm]

lemma mem_evs_of_mem_disposeObj (old : List (String × VisualObj))
    (p : String × VisualObj) (hp : p ∈ old) (e : Ev)
    (he : e ∈ disposeObj p.1 p.2) :
    e ∈ old.foldr (fun q acc => disposeObj q.1 q.2 ++ acc) [] := by
  induction old with
  | nil => cases hp
  | cons q rest ih =>
      rw [List.foldr_cons]
      rcases List.mem_cons.mp hp with h | h
      · subst h; exact List.mem_append.mpr (Or.inl he)
      · exact List.mem_append.mpr (Or.inr (ih h))

lemma mem_prims_fold_of_mem (prims : List Prim) (pr : Prim) (hpr : pr ∈ prims)
    (e : Ev) (he : e ∈ disposePrim pr) :
    e ∈ prims.foldr (fun q acc => disposePrim q ++ acc) [] := by
  induction prims with
  | nil => cases hpr
  | cons q rest ih =>
      rw [List.foldr_cons]
      rcases List.mem_cons.mp hpr with h | h
      · subst h; exact List.mem_append.mpr (Or.inl he)
      · exact List.mem_append.mpr (Or.inr (ih h))

lemma mem_disposeObj_of_mem_prim (id : String) (v : VisualObj)
    (pr : Prim) (hpr : pr ∈ v.prims) (e : Ev) (he : e ∈ disposePrim pr) :
    e ∈ disposeObj id v := by
  unfold disposeObj
  exact List.mem_cons.mpr (Or.inr (mem_prims_fold_of_mem v.prims pr hpr e he))

lemma disposeGeom_mem_disposePrim (pr : Prim) (g : ℕ) (h : pr.geom = some g) :
    Ev.disposeGeom g ∈ disposePrim pr := by
  unfold disposePrim
  rw [h]
  exact List.mem_append.mpr (Or.inl (List.mem_singleton.mpr rfl))

lemma disposeMat_inl_mem_disposePrim (pr : Prim) (m : ℕ) (h : pr.mat = .inl m) :
    Ev.disposeMat m ∈ disposePrim pr := by
  unfold disposePrim
  rw [h]
  exact List.mem_append.mpr (Or.inr (List.mem_singleton.mpr rfl))

lemma disposeMat_inr_mem_disposePrim (pr : Prim) (ms : List ℕ) (m : ℕ)
    (h : pr.mat = .inr ms) (hm : m ∈ ms) :
    Ev.disposeMat m ∈ disposePrim pr := by
  unfold disposePrim
  rw [h]
  exact List.mem_append.mpr (Or.inr (List.mem_map.mpr ⟨m, hm, rfl⟩))

lemma mapSet_append {α : Type} (m : List (String × α)) (k : String) (v : α)
    (h : ∀ p ∈ m, p.1 ≠ k) : mapSet m k v = m ++ [(k, v)] := by
  unfold mapSet
  have hc : m.any (fun p => p.1 = k) = false := by
    rw [List.any_eq_false]
    intro p hp
    simpa using h p hp
  rw [hc]
  simp

lemma foldl_mapSet_length (payload : ℕ × FishRow → FishVis) :
    ∀ (l : List (ℕ × FishRow)) (m : List (String × FishVis)),
      (l.map fun kr => kr.2.id).Nodup →
      (∀ kr ∈ l, ∀ p ∈ m, p.1 ≠ kr.2.id) →
      (l.foldl (fun m kr => mapSet m kr.2.id (payload kr)) m).length
        = m.length + l.length := by
  intro l
  induction l with
  | nil => intro m _ _; simp
  | cons kr rest ih =>
      intro m hnd hdisj
      rw [List.map_cons] at hnd
      have hnd' := List.nodup_cons.mp hnd
      have hdisj2 : ∀ kr2 ∈ rest, ∀ p ∈ m ++ [(kr.2.id, payload kr)],
          p.1 ≠ kr2.2.id := by
        intro kr2 hkr2 p hp
        rcases List.mem_append.mp hp with hmem | hmem
        · exact hdisj kr2 (List.mem_cons_of_mem _ hkr2) p hmem
        · have hpe : p = (kr.2.id, payload kr) := List.mem_singleton.mp hmem
          subst hpe
          show kr.2.id ≠ kr2.2.id
          intro hcontra
          refine hnd'.1 ?_
          rw [hcontra]
          exact List.mem_map.mpr ⟨kr2, hkr2, rfl⟩
      rw [List.foldl_cons, mapSet_append m kr.2.id (payload kr)
        (hdisj kr (List.mem_cons_self _ _)),
        ih (m ++ [(kr.2.id, payload kr)]) hnd'.2 hdisj2]
      simp [List.length_append]
      omega

end Scene

/-! ## Claim theorems for the reconciliation effect -/

/-- C3, counterexample: when the instance list shrinks from 5 to 3, the
effect removes and disposes **all five** previously-built visual
objects (full rebuild), not exactly 2; the new live map then holds 3
freshly built entries. -/
theorem c3_five_to_three_disposes_five :
    ((Scene.reconcileFish Scene.cxOld Scene.cxRows Scene.cxBuild Scene.cxRngQ
        2 1 1).2.countP Scene.isRemove) = 5
      ∧ (Scene.reconcileFish Scene.cxOld Scene.cxRows Scene.cxBuild Scene.cxRngQ
        2 1 1).1.length = 3
      ∧ (5 : ℕ) ≠ 2 := by decide

/-- C3, amended: the reconciliation effect is a full rebuild.  It
removes from the tank and disposes **every** previously-built visual
object (one `tank.remove` per old entry, and a geometry dispose and a
material dispose for every primitive of every old object — so in the
5→3 scenario five objects are disposed, not two), and afterwards the
live map holds exactly one freshly built entry per current row
(3 in the scenario), provided the row ids are distinct. -/
theorem c3_reconcile_full_rebuild (old : List (String × Scene.VisualObj))
    (rows : List Scene.FishRow) (build : String → Scene.VisualObj)
    (rng : ℕ → ℚ) (halfW halfH halfD : ℚ)
    (hnd : (rows.map Scene.FishRow.id).Nodup) :
    ((Scene.reconcileFish old rows build rng halfW halfH halfD).2.countP
        Scene.isRemove) = old.length
    ∧ (∀ p ∈ old, ∀ pr ∈ p.2.prims,
        (∀ g, pr.geom = some g → Scene.Ev.disposeGeom g
          ∈ (Scene.reconcileFish old rows build rng halfW halfH halfD).2)
        ∧ (∀ m, pr.mat = .inl m → Scene.Ev.disposeMat m
          ∈ (Scene.reconcileFish old rows build rng halfW halfH halfD).2)
        ∧ (∀ ms m, pr.mat = .inr ms → m ∈ ms → Scene.Ev.disposeMat m
          ∈ (Scene.reconcileFish old rows build rng halfW halfH halfD).2))
    ∧ (Scene.reconcileFish old rows build rng halfW halfH halfD).1.length
        = rows.length := by
  refine ⟨Scene.count_remove_evs old, ?_, ?_⟩
  · intro p hp pr hpr
    refine ⟨?_, ?_, ?_⟩
    · intro g hg
      exact Scene.mem_evs_of_mem_disposeObj old p hp _
        (Scene.mem_disposeObj_of_mem_prim p.1 p.2 pr hpr _
          (Scene.disposeGeom_mem_disposePrim pr g hg))
    · intro m hm
      exact Scene.mem_evs_of_mem_disposeObj old p hp _
        (Scene.mem_disposeObj_of_mem_prim p.1 p.2 pr hpr _
          (Scene.disposeMat_inl_mem_disposePrim pr m hm))
    · intro ms m hms hm
      exact Scene.mem_evs_of_mem_disposeObj old p hp _
        (Scene.mem_disposeObj_of_mem_prim p.1 p.2 pr hpr _
          (Scene.disposeMat_inr_mem_disposePrim pr ms m hms hm))
  · have hnd2 : (rows.enum.map fun kr => kr.2.id).Nodup := by
      have : (rows.enum.map fun kr => kr.2.id)
          = (rows.enum.map Prod.snd).map Scene.FishRow.id := by
        rw [List.map_map]; rfl
      rw [this, List.enum_map_snd]
      exact hnd
    have h := Scene.foldl_mapSet_length
      (fun kr => { obj := build (kr.2.modelRef.getD "goldfish"),
                   posX := (rng (3 * kr.1) - 0.5) * halfW * 2,
                   posY := (rng (3 * kr.1 + 1) - 0.5) * halfH * 1.4,
                   posZ := (rng (3 * kr.1 + 2) - 0.5) * halfD * 2,
                   speciesId := kr.2.speciesId })
      rows.enum [] hnd2 (by intro kr _ p hp; cases hp)
    simpa [List.enum_length] using h

/-- C3, witness for the amended theorem at the concrete 5→3 scenario. -/
theorem c3_reconcile_witness :
    ((Scene.reconcileFish Scene.cxOld Scene.cxRows Scene.cxBuild Scene.cxRngQ
        2 1 1).2.countP Scene.isRemove) = Scene.cxOld.length
    ∧ (∀ p ∈ Scene.cxOld, ∀ pr ∈ p.2.prims,
        (∀ g, pr.geom = some g → Scene.Ev.disposeGeom g
          ∈ (Scene.reconcileFish Scene.cxOld Scene.cxRows Scene.cxBuild
              Scene.cxRngQ 2 1 1).2)
        ∧ (∀ m, pr.mat = .inl m → Scene.Ev.disposeMat m
          ∈ (Scene.reconcileFish Scene.cxOld Scene.cxRows Scene.cxBuild
              Scene.cxRngQ 2 1 1).2)
        ∧ (∀ ms m, pr.mat = .inr ms → m ∈ ms → Scene.Ev.disposeMat m
          ∈ (Scene.reconcileFish Scene.cxOld Scene.cxRows Scene.cxBuild
              Scene.cxRngQ 2 1 1).2))
    ∧ (Scene.reconcileFish Scene.cxOld Scene.cxRows Scene.cxBuild Scene.cxRngQ
        2 1 1).1.length = Scene.cxRows.length :=
  c3_reconcile_full_rebuild Scene.cxOld Scene.cxRows Scene.cxBuild Scene.cxRngQ
    2 1 1 (by decide)

/-! ## Claim theorems for the mesh builders -/

/-- C6: every reference string outside the recognised catalog maps to the
generic fallback — `buildFishMesh` to a generic fish whose hue is the
pure function `fallbackHue` of the string alone (so two calls with the
same string get the same hue), `buildDecorationMesh` to the generic small
plant — and the fallback hue always lies in [0, 1).  Both dispatchers
are total functions: no reference string can make them throw. -/
theorem c6_fallback_deterministic (s s2 : String)
    (hs : s ∉ fishCatalog) (hs2 : s2 ∉ decoCatalog) :
    buildFishMesh s = .generic (fallbackHue s)
      ∧ buildDecorationMesh s2 = .plant 0.25 3 0.35 0.5 0.45
      ∧ 0 ≤ fallbackHue s ∧ fallbackHue s < 1 := by
  refine ⟨?_, ?_, ?_, ?_⟩
  · simp only [fishCatalog, List.mem_cons, List.not_mem_nil, or_false] at hs
    push_neg at hs
    obtain ⟨h1, h2, h3, h4, h5, h6, h7, h8⟩ := hs
    unfold buildFishMesh
    rw [if_neg h1, if_neg h2, if_neg h3, if_neg h4, if_neg h5, if_neg h6,
      if_neg h7, if_neg h8]
  · simp only [decoCatalog, List.mem_cons, List.not_mem_nil, or_false] at hs2
    push_neg at hs2
    obtain ⟨h1, h2, h3, h4, h5, h6⟩ := hs2
    unfold buildDecorationMesh
    rw [if_neg h1, if_neg h2, if_neg h3, if_neg h4, if_neg h5, if_neg h6]
  · unfold fallbackHue
    have h1 : (0 : ℤ) ≤ hashStr s % 360 := Int.emod_nonneg _ (by norm_num)
    exact div_nonneg (by exact_mod_cast h1) (by norm_num)
  · unfold fallbackHue
    have h2 : hashStr s % 360 < 360 := Int.emod_lt_of_pos _ (by norm_num)
    rw [div_lt_one (by norm_num : (0:ℚ) < 360)]
    exact_mod_cast h2

/-- C6, witness at concrete unrecognised reference strings. -/
theorem c6_fallback_witness :
    buildFishMesh "mystery_fish" = .generic (fallbackHue "mystery_fish")
      ∧ buildDecorationMesh "mystery_deco" = .plant 0.25 3 0.35 0.5 0.45
      ∧ 0 ≤ fallbackHue "mystery_fish" ∧ fallbackHue "mystery_fish" < 1 :=
  c6_fallback_deterministic "mystery_fish" "mystery_deco" (by decide) (by decide)

/-! ## Lemmas about the drag interaction -/

namespace Drag

lemma eq_of_parts (a b : DecoGroup) (h1 : a.pos = b.pos)
    (h2 : a.meshes = b.meshes) : a = b := by
  cases a; cases b
  cases h1; cases h2
  rfl

/-- The fold of recorded assignments acts pointwise on the meshes and
never touches the group position. -/
lemma assignMat_foldl (ps : List (ℕ × MatVal)) (g : DecoGroup) :
    (ps.foldl (fun g p => assignMat g p.1 p.2) g).meshes
        = g.meshes.map (fun m => ps.foldl restoreStep m)
      ∧ (ps.foldl (fun g p => assignMat g p.1 p.2) g).pos = g.pos := by
  induction ps generalizing g with
  | nil => simp
  | cons p rest ih =>
      rw [List.foldl_cons]
      obtain ⟨h1, h2⟩ := ih (assignMat g p.1 p.2)
      refine ⟨?_, h2⟩
      rw [h1]
      show (g.meshes.map fun m => restoreStep m p).map
          (fun m => rest.foldl restoreStep m)
        = g.meshes.map fun m => (p :: rest).foldl restoreStep m
      rw [List.map_map]
      rfl

lemma foldl_restore_skip (rest : List (ℕ × MatVal)) (m : DMesh)
    (h : ∀ p ∈ rest, p.1 ≠ m.id) :
    rest.foldl restoreStep m = m := by
  induction rest with
  | nil => rfl
  | cons p ps ih =>
      rw [List.foldl_cons]
      unfold restoreStep
      rw [if_neg (fun hc => h p (List.mem_cons_self _ _) hc.symm)]
      exact ih fun q hq => h q (List.mem_cons_of_mem _ hq)

/-- Restoring the recorded materials over the highlighted copy of a mesh
yields the original mesh back, provided mesh ids are distinct. -/
lemma foldl_restore_highlight (L : List DMesh) (m : DMesh)
    (hnd : (L.map DMesh.id).Nodup) (hm : m ∈ L) :
    (L.map fun m0 => (m0.id, m0.material)).foldl restoreStep
      { m with material := .single (.highlightClone (firstMat m.material)) }
      = m := by
  induction L with
  | nil => cases hm
  | cons m0 rest ih =>
      rw [List.map_cons] at hnd
      have hnd' := List.nodup_cons.mp hnd
      rcases List.mem_cons.mp hm with he | he
      · subst he
        rw [List.map_cons, List.foldl_cons]
        have hstep : restoreStep
            { m with material := .single (.highlightClone (firstMat m.material)) }
            (m.id, m.material) = m := by
          unfold restoreStep
          rw [if_pos rfl]
        rw [hstep]
        apply foldl_restore_skip
        intro p hp
        rcases List.mem_map.mp hp with ⟨mr, hmr, hpe⟩
        subst hpe
        show mr.id ≠ m.id
        intro hc
        exact hnd'.1 (hc ▸ List.mem_map.mpr ⟨mr, hmr, rfl⟩)
      · rw [List.map_cons, List.foldl_cons]
        have hne2 : ¬m.id = m0.id := by
          intro hc
          exact hnd'.1 (hc ▸ List.mem_map.mpr ⟨m, he, rfl⟩)
        have hstep : restoreStep
            { m with material := .single (.highlightClone (firstMat m.material)) }
            (m0.id, m0.material)
            = { m with material := .single (.highlightClone (firstMat m.material)) } := by
          unfold restoreStep
          exact if_neg hne2
        rw [hstep]
        exact ih hnd'.2 he

end Drag

/-! ## Claim theorems for the drag interaction -/

/-- C9: highlight-then-unhighlight is the identity on a decoration group
whose primitive meshes are distinct: every mesh gets back exactly the
material recorded for it before the highlight, and the group position is
untouched. -/
theorem c9_highlight_roundtrip (ds : Drag.DragSt) (g : Drag.DecoGroup)
    (hnd : (g.meshes.map Drag.DMesh.id).Nodup) :
    (Drag.unhighlightMesh (Drag.highlightMesh ds g).1
      (Drag.highlightMesh ds g).2).2 = g := by
  unfold Drag.unhighlightMesh Drag.highlightMesh
  dsimp only
  obtain ⟨hm, hp⟩ := Drag.assignMat_foldl
    (g.meshes.map fun m => (m.id, m.material))
    { g with meshes := g.meshes.map fun m =>
        { m with material := .single (.highlightClone (Drag.firstMat m.material)) } }
  apply Drag.eq_of_parts
  · exact hp
  · rw [hm]
    show (g.meshes.map fun m =>
        { m with material := .single (.highlightClone (Drag.firstMat m.material)) }).map
        (fun m => (g.meshes.map fun m0 => (m0.id, m0.material)).foldl
          Drag.restoreStep m)
      = g.meshes
    rw [List.map_map]
    have hall : ∀ m ∈ g.meshes,
        ((fun m => (g.meshes.map fun m0 => (m0.id, m0.material)).foldl
            Drag.restoreStep m) ∘ fun m =>
          { m with material := .single (.highlightClone (Drag.firstMat m.material)) }) m
          = id m :=
      fun m hm2 => Drag.foldl_restore_highlight g.meshes m hnd hm2
    rw [List.map_congr_left hall, List.map_id]

/-- C9, witness at a concrete two-mesh group. -/
theorem c9_highlight_witness :
    (Drag.unhighlightMesh (Drag.highlightMesh Drag.wDrag Drag.wGroup).1
      (Drag.highlightMesh Drag.wDrag Drag.wGroup).2).2 = Drag.wGroup :=
  c9_highlight_roundtrip Drag.wDrag Drag.wGroup (by decide)

/-- C7: during an active drag, a pointer move whose ray hits the drag
plane at local point `p` clamps the dragged group's x to
[−(tankWidth/2 − 0.15), tankWidth/2 − 0.15] and z to
[−(tankDepth/2 − 0.15), tankDepth/2 − 0.15], and never alters y. -/
theorem c7_drag_clamp (tankWidth tankDepth : ℚ) (ds : Drag.DragSt)
    (g : Drag.DecoGroup) (p : Drag.V3)
    (hW : 0.3 ≤ tankWidth) (hD : 0.3 ≤ tankDepth)
    (hact : ds.active = true) (hmesh : ds.mesh = some g) :
    ∃ g2, (Drag.onPointerMove (Drag.dragHalfW tankWidth)
        (Drag.dragHalfD tankDepth) ds (some p)).mesh = some g2
      ∧ |g2.pos.x| ≤ tankWidth / 2 - 0.15
      ∧ |g2.pos.z| ≤ tankDepth / 2 - 0.15
      ∧ g2.pos.y = g.pos.y := by
  have hcond : ¬(ds.active = false ∨ ds.mesh = none) := by
    rw [hact, hmesh]; simp
  unfold Drag.onPointerMove
  rw [if_neg hcond, hmesh]
  refine ⟨_, rfl, ?_, ?_, rfl⟩
  · rw [show (Drag.dragHalfW tankWidth) = tankWidth / 2 - 0.15 from rfl]
    rw [abs_le]
    constructor
    · exact le_max_left _ _
    · exact max_le (by linarith) (min_le_left _ _)
  · rw [show (Drag.dragHalfD tankDepth) = tankDepth / 2 - 0.15 from rfl]
    rw [abs_le]
    constructor
    · exact le_max_left _ _
    · exact max_le (by linarith) (min_le_left _ _)

/-- C7, witness: a concrete move that overshoots both axes. -/
theorem c7_drag_clamp_witness :
    ∃ g2, (Drag.onPointerMove (Drag.dragHalfW 3) (Drag.dragHalfD 2)
        Drag.wDrag (some ⟨10, 1/5, -10⟩)).mesh = some g2
      ∧ |g2.pos.x| ≤ 3 / 2 - 0.15
      ∧ |g2.pos.z| ≤ 2 / 2 - 0.15
      ∧ g2.pos.y = Drag.wGroup.pos.y :=
  c7_drag_clamp 3 2 Drag.wDrag Drag.wGroup ⟨10, 1/5, -10⟩
    (by norm_num) (by norm_num) rfl rfl

/-- C8: a pointer-up during an active drag (non-empty decoration id)
runs the finalisation exactly once: the drop callback receives the id
and the group's final coordinates exactly once, orbit controls are
re-enabled, the pointer capture is released, the drag state returns to
idle with its recorded materials cleared; a pointer-up with no active
drag changes nothing and fires no callback; and the pointer-cancel
handler is the very same function as the pointer-up handler. -/
theorem c8_pointer_up_finalize (ds : Drag.DragSt) (ce : Bool)
    (g : Drag.DecoGroup) (did : String)
    (hact : ds.active = true) (hmesh : ds.mesh = some g)
    (hid : ds.decorationId = some did) (hne : did ≠ "") :
    (Drag.onPointerUp ds ce true).calls = [(did, g.pos.x, g.pos.y, g.pos.z)]
      ∧ (Drag.onPointerUp ds ce true).controlsEnabled = true
      ∧ (Drag.onPointerUp ds ce true).captureReleased = true
      ∧ (Drag.onPointerUp ds ce true).ds.active = false
      ∧ (Drag.onPointerUp ds ce true).ds.decorationId = none
      ∧ (Drag.onPointerUp ds ce true).ds.mesh = none
      ∧ (Drag.onPointerUp ds ce true).ds.originalMaterials = []
      ∧ (∀ (ds2 : Drag.DragSt) (ce2 dw2 : Bool), ds2.active = false →
          Drag.onPointerUp ds2 ce2 dw2 = ⟨ds2, ds2.mesh, ce2, false, []⟩)
      ∧ Drag.onPointerCancel = Drag.onPointerUp := by
  have hguard : ¬(ds.active = false ∨ did = "") := by
    rw [hact]; simp [hne]
  have hpos := (Drag.assignMat_foldl ds.originalMaterials g).2
  unfold Drag.onPointerUp
  rw [hmesh, hid]
  dsimp only
  rw [if_neg hguard]
  refine ⟨?_, rfl, rfl, rfl, rfl, rfl, rfl, ?_, rfl⟩
  · show (if true = true then
        [(did, (Drag.unhighlightMesh ds g).2.pos.x,
          (Drag.unhighlightMesh ds g).2.pos.y,
          (Drag.unhighlightMesh ds g).2.pos.z)] else [])
      = [(did, g.pos.x, g.pos.y, g.pos.z)]
    rw [if_pos rfl]
    rw [show (Drag.unhighlightMesh ds g).2.pos = g.pos from hpos]
  · intro ds2 ce2 dw2 hact2
    cases hm2 : ds2.mesh with
    | none =>
        cases hi2 : ds2.decorationId <;> rfl
    | some g2 =>
        cases hi2 : ds2.decorationId with
        | none => rfl
        | some did2 =>
            dsimp only
            rw [if_pos (Or.inl hact2)]

/-- C8, witness at the concrete active drag state. -/
theorem c8_pointer_up_witness :
    (Drag.onPointerUp Drag.wDrag false true).calls
        = [("d1", Drag.wGroup.pos.x, Drag.wGroup.pos.y, Drag.wGroup.pos.z)]
      ∧ (Drag.onPointerUp Drag.wDrag false true).controlsEnabled = true
      ∧ (Drag.onPointerUp Drag.wDrag false true).captureReleased = true
      ∧ (Drag.onPointerUp Drag.wDrag false true).ds.active = false
      ∧ (Drag.onPointerUp Drag.wDrag false true).ds.decorationId = none
      ∧ (Drag.onPointerUp Drag.wDrag false true).ds.mesh = none
      ∧ (Drag.onPointerUp Drag.wDrag false true).ds.originalMaterials = []
      ∧ (∀ (ds2 : Drag.DragSt) (ce2 dw2 : Bool), ds2.active = false →
          Drag.onPointerUp ds2 ce2 dw2 = ⟨ds2, ds2.mesh, ce2, false, []⟩)
      ∧ Drag.onPointerCancel = Drag.onPointerUp :=
  c8_pointer_up_finalize Drag.wDrag false Drag.wGroup "d1" rfl rfl rfl
    (by decide)

end Aquarium
